import Mathlib

/-!
Verification of `unileverImageStudy/utils/task_calculation.py` (the capacity &
exposure planner and the tasks-per-consumer calculators).

Modelling conventions:
* The Python `Dict[str, List[str]]` argument `category_info` (insertion
  ordered) is a `List (String × List String)`.
* Python `int` is `ℤ` where a value can be negative (`params_main_effects`,
  the public calculators' `total_elements` argument, `A_map` entries) and `ℕ`
  where the source value is manifestly non-negative (lengths, counts, the
  planner's `T`, `E`, capacities).
* The only floats in the source are the constants `ABSENCE_RATIO = 2.0` and
  `T_RATIO = 1.50` and the `/` divisions they infect; each such expression is
  `math.floor`/`math.ceil` of a ratio of integers and is modelled by the exact
  rational (`ℚ` with `⌊·⌋₊` / `⌈·⌉₊`), i.e. floats are read as real numbers.
* `raise` is modelled by `Except String`; the `print` calls are dropped.
-/

namespace TaskCalculation

/-- `PER_ELEM_EXPOSURES = 3`: minimum exposures per element. -/
def PER_ELEM_EXPOSURES : ℕ := 3

/-- `MIN_ACTIVE_PER_ROW = 2`: minimum active categories per vignette. -/
def MIN_ACTIVE_PER_ROW : ℕ := 2

/-- `SAFETY_ROWS = 3`: OLS safety margin above `P`. -/
def SAFETY_ROWS : ℕ := 3

/-- `ABSENCE_RATIO = 2.0` (a Python float, represented exactly). -/
def ABSENCE_RATIO : ℚ := 2

/-- `T_RATIO = 1.50` (a Python float, represented exactly). -/
def T_RATIO : ℚ := 3 / 2

/-- `CAPACITY_SLACK = 1`: patterns to keep unused (avoid `T == cap`). -/
def CAPACITY_SLACK : ℕ := 1

/-- The category model: a Python `Dict[str, List[str]]` in insertion order. -/
abbrev CategoryInfo := List (String × List String)

/-- `C = len(category_info)`. -/
def numCategories (info : CategoryInfo) : ℕ := info.length

/-- The per-category element counts `[len(category_info[c]) for c in cats]`. -/
def catSizes (info : CategoryInfo) : List ℕ := info.map fun p => p.2.length

/-- `M = sum(len(v) for v in category_info.values())`. -/
def totalElems (info : CategoryInfo) : ℕ := (catSizes info).sum

/-- `params_main_effects`: `M - C + 1` over Python integers. -/
def params_main_effects (info : CategoryInfo) : ℤ :=
  (totalElems info : ℤ) - (numCategories info : ℤ) + 1

/-- One pass of the convolution loop in `visible_capacity`: from the running
coefficient array `coeff` (length `C+1`) the source builds `nxt` with
`nxt[k] += coeff[k]` (the ABS choice) and `nxt[k+1] += coeff[k]*mi` (choose
one of `mi` elements), the `k+1` update being skipped when `k+1 > C`; read
index-wise, `nxt[k] = coeff[k] + coeff[k-1]*mi` (no second term at `k = 0`).
The source's `if coeff[k]==0: continue` is a pure skip of zero additions. -/
def convStep (C : ℕ) (coeff : List ℕ) (mi : ℕ) : List ℕ :=
  (List.range (C + 1)).map fun k =>
    coeff.getD k 0 + (if k = 0 then 0 else coeff.getD (k - 1) 0 * mi)

/-- `visible_capacity(category_info, min_active, max_active)`: convolve the
per-category polynomials `1 + q[c]·x` into `coeff`, then sum `coeff[k]` for
`k` in `range(lo, hi+1)` where `hi = C if max_active is None else
min(max_active, C)` and `lo = max(min_active, 0)`, returning 0 when
`lo > hi`. -/
def visible_capacity (info : CategoryInfo) (min_active : ℕ)
    (max_active : Option ℕ := none) : ℕ :=
  let m := catSizes info
  let C := m.length
  let coeff := m.foldl (convStep C) (1 :: List.replicate C 0)
  let hi := match max_active with
    | none => C
    | some a => min a C
  let lo := max min_active 0
  if hi < lo then 0
  else ∑ k ∈ Finset.Icc lo hi, coeff.getD k 0

/-- The message of the `RuntimeError` raised by `plan_T_E_auto` (the
`PlanningInfeasible` failure of the spec). -/
def infeasibleMessage : String :=
  "Infeasible: T exceeds visible capacity. Add elements/categories or relax ABSENCE_RATIO/T_RATIO."

/-- The closure `E_upper_at_T` inside `plan_T_E_auto`: the largest feasible
`E` at a given `T_try`, as the minimum of the per-category absence-ratio bound
`min(floor(T_try / (q[c] + ABSENCE_RATIO)) for c in cats)` and the per-row
active cap `floor(T_try * rowcap / M)`.  Python's `min()` raises on an empty
`cats`; that call is unreachable (the capacity check fires first when there
are no categories) and is modelled as `.getD 0`.  `M = 0` likewise only occurs
on inputs where the loop errors before calling this. -/
def E_upper_at_T (info : CategoryInfo) (study_mode : String)
    (max_active_per_row : Option ℕ) (T_try : ℕ) : ℕ :=
  let bound_ratio :=
    ((info.map fun p => ⌊(T_try : ℚ) / ((p.2.length : ℚ) + ABSENCE_RATIO)⌋₊).min?).getD 0
  let rowcap :=
    if study_mode = "grid" then
      match max_active_per_row with
      | some a => a
      | none => numCategories info
    else numCategories info
  let bound_rowcap := ⌊((T_try * rowcap : ℕ) : ℚ) / ((totalElems info : ℕ) : ℚ)⌋₊
  min bound_ratio bound_rowcap

/-- The initial `T` of `plan_T_E_auto`: `T = max(P + SAFETY_ROWS, 2)`, then
`T = ceil(T * T_RATIO)` under the source guard `if T_RATIO and
T_RATIO > 1.0` (truthiness of the float plus the comparison). -/
def initialT (info : CategoryInfo) : ℕ :=
  let T : ℤ := max (params_main_effects info + (SAFETY_ROWS : ℤ)) 2
  if T_RATIO ≠ 0 ∧ 1 < T_RATIO then ⌈(T : ℚ) * T_RATIO⌉₊ else T.toNat

/-- The `while True` search loop of `plan_T_E_auto`, with the mutable `T` and
`slack` made explicit state.  One iteration: if `T > max(cap - slack, 0)`
then raise infeasibility when `T > cap` outright, else drop `slack` to 0;
then accept `(T, E_upper_at_T T)` if it reaches `PER_ELEM_EXPOSURES`,
otherwise retry with `T + 1`. -/
def planLoop (Eup : ℕ → ℕ) (cap T slack : ℕ) : Except String (ℕ × ℕ) :=
  if h1 : max (cap - slack) 0 < T then
    if h2 : cap < T then .error infeasibleMessage
    else if PER_ELEM_EXPOSURES ≤ Eup T then .ok (T, Eup T)
    else planLoop Eup cap (T + 1) 0
  else if PER_ELEM_EXPOSURES ≤ Eup T then .ok (T, Eup T)
  else planLoop Eup cap (T + 1) slack
termination_by cap + 1 - T
decreasing_by
  · omega
  · simp only [Nat.max_zero] at h1; omega

/-- `plan_T_E_auto(category_info, study_mode, max_active_per_row)`: compute
`cap`, start from `initialT`, run the search loop, and on success return
`(T, E, A_map, avg_k, A_min_used)` with `A_map = {c: T - q[c]*E}` in
insertion order, `avg_k = (M*E)/T` (exact rational) and
`A_min_used = ceil(ABSENCE_RATIO * E)`. -/
def plan_T_E_auto (info : CategoryInfo) (study_mode : String)
    (max_active_per_row : Option ℕ) :
    Except String (ℕ × ℕ × List (String × ℤ) × ℚ × ℕ) :=
  let cap := visible_capacity info MIN_ACTIVE_PER_ROW
    (if study_mode = "grid" then max_active_per_row else none)
  match planLoop (E_upper_at_T info study_mode max_active_per_row) cap
      (initialT info) CAPACITY_SLACK with
  | .error e => .error e
  | .ok (T, E) =>
    let A_min_used := ⌈ ABSENCE_RATIO * (E : ℚ)⌉₊
    let A_map := info.map fun p => (p.1, (T : ℤ) - (p.2.length : ℤ) * (E : ℤ))
    let avg_k : ℚ := ((totalElems info * E : ℕ) : ℚ) / (T : ℚ)
    .ok (T, E, A_map, avg_k, A_min_used)

/-- `calculate_tasks_per_consumer_simple(total_elements)`.  `math.comb` is
`Nat.choose` (the guard keeps `total_elements ≥ 4 > 0` at that call);
`math.floor(max_combinations / 2)` is the exact floored halving. -/
def calculate_tasks_per_consumer_simple (total_elements : ℤ) : ℤ :=
  if total_elements < 4 then 8
  else
    let K : ℕ := if total_elements ≤ 8 then 2 else if total_elements ≤ 16 then 3 else 4
    let max_combinations : ℤ :=
      if (K : ℤ) ≤ total_elements then (total_elements.toNat.choose K : ℤ) else 0
    let max_cap : ℤ :=
      if total_elements ≤ 16 then 24
      else if total_elements ≤ 32 then 48
      else if total_elements ≤ 64 then 96
      else 120
    min max_cap (max 1 (max_combinations.fdiv 2))

/-- The nested `calculate_combination(n, k)` of
`calculate_tasks_per_consumer_javascript`: 0 when `k > n`, 1 when `k == 0` or
`k == n`, otherwise the multiplicative loop
`result = result * (n - i + 1) // i` for `i` in `range(1, k + 1)`, with
Python's floor division `//` (`Int.fdiv`). -/
def calculate_combination (n : ℤ) (k : ℕ) : ℤ :=
  if n < (k : ℤ) then 0
  else if k = 0 ∨ (k : ℤ) = n then 1
  else (List.range' 1 k).foldl (fun (result : ℤ) (i : ℕ) => (result * (n - (i : ℤ) + 1)).fdiv (i : ℤ)) 1

/-- `calculate_tasks_per_consumer_javascript(total_elements)`: same tiers and
caps as the simple calculator, with the binomial computed by
`calculate_combination` and halved by integer `// 2`. -/
def calculate_tasks_per_consumer_javascript (total_elements : ℤ) : ℤ :=
  if total_elements < 4 then 8
  else
    let K : ℕ := if total_elements ≤ 8 then 2 else if total_elements ≤ 16 then 3 else 4
    let max_combinations : ℤ := calculate_combination total_elements K
    let max_cap : ℤ :=
      if total_elements ≤ 16 then 24
      else if total_elements ≤ 32 then 48
      else if total_elements ≤ 64 then 96
      else 120
    min max_cap (max 1 (max_combinations.fdiv 2))

/-- `calculate_tasks_per_consumer(total_elements, category_info, study_mode,
use_advanced_algorithm)`: below 4 elements return 8; in advanced mode with a
truthy (non-`None`, non-empty) `category_info`, call the planner with
`max_active_per_row = min(4, len(category_info))` for grid mode else `None`,
return its `T`, and on any exception fall through to the simple fallback;
otherwise use the simple fallback directly. -/
def calculate_tasks_per_consumer (total_elements : ℤ)
    (category_info : Option CategoryInfo := none) (study_mode : String := "grid")
    (use_advanced_algorithm : Bool := true) : ℤ :=
  if total_elements < 4 then 8
  else
    match use_advanced_algorithm, category_info with
    | true, some info =>
      if info.isEmpty then calculate_tasks_per_consumer_simple total_elements
      else
        match plan_T_E_auto info study_mode
            (if study_mode = "grid" then some (min 4 info.length) else none) with
        | .ok (T, _) => (T : ℤ)
        | .error _ => calculate_tasks_per_consumer_simple total_elements
    | _, _ => calculate_tasks_per_consumer_simple total_elements

/-! Concrete inputs used by the scenario claim and the witnesses. -/

/-- The spec's concrete scenario `{A:[a1,a2], B:[b1,b2,b3]}`. -/
def sampleAB : CategoryInfo := [( "A", [ "a1", "a2" ]), ( "B", [ "b1", "b2", "b3" ])]

/-- A three-by-three configuration on which the planner succeeds. -/
def sampleThree : CategoryInfo :=
  [( "A", [ "a1", "a2", "a3" ]), ( "B", [ "b1", "b2", "b3" ]), ( "C", [ "c1", "c2", "c3" ])]

/-! Bridge lemmas: every float expression of the source, modelled as an exact
rational, equals a pure `ℕ` computation. -/

/-- `floor(T / (q + ABSENCE_RATIO))` is natural division by `q + 2`. -/
theorem absence_floor_eq (T q : ℕ) :
    ⌊(T : ℚ) / ((q : ℚ) + ABSENCE_RATIO)⌋₊ = T / (q + 2) := by
  have h : ((q : ℚ)) + ABSENCE_RATIO = ((q + 2 : ℕ) : ℚ) := by
    unfold ABSENCE_RATIO; push_cast; ring
  rw [h, Nat.floor_div_eq_div]

/-- `floor(a / b)` on naturals is natural division. -/
theorem natCast_floor_div_eq (a b : ℕ) : ⌊((a : ℕ) : ℚ) / ((b : ℕ) : ℚ)⌋₊ = a / b :=
  Nat.floor_div_eq_div a b

/-- `ceil(ABSENCE_RATIO * E)` is exactly `2 * E`. -/
theorem ceil_absence_eq (E : ℕ) : ⌈ ABSENCE_RATIO * (E : ℚ)⌉₊ = 2 * E := by
  have h : ABSENCE_RATIO * (E : ℚ) = ((2 * E : ℕ) : ℚ) := by
    unfold ABSENCE_RATIO; push_cast; ring
  rw [h, Nat.ceil_natCast]

/-- `ceil(n * T_RATIO)` is `(3*n + 1) / 2` on naturals. -/
theorem ceil_t_scale_eq (n : ℕ) : ⌈(n : ℚ) * T_RATIO⌉₊ = (3 * n + 1) / 2 := by
  rcases Nat.even_or_odd n with ⟨m, rfl⟩ | ⟨m, rfl⟩
  · have h : ((m + m : ℕ) : ℚ) * T_RATIO = ((3 * m : ℕ) : ℚ) := by
      unfold T_RATIO; push_cast; ring
    rw [h, Nat.ceil_natCast]; omega
  · have h : ((2 * m + 1 : ℕ) : ℚ) * T_RATIO = 3 / 2 + ((3 * m : ℕ) : ℚ) := by
      unfold T_RATIO; push_cast; ring
    have h32 : ⌈(3 / 2 : ℚ)⌉₊ = 2 := by
      rw [Nat.ceil_eq_iff (by norm_num)]
      norm_num
    rw [h, Nat.ceil_add_nat (by norm_num), h32]; omega

/-- `initialT` as a pure natural-number computation. -/
theorem initialT_eq (info : CategoryInfo) :
    initialT info = (3 * (max (params_main_effects info + (SAFETY_ROWS : ℤ)) 2).toNat + 1) / 2 := by
  unfold initialT
  rw [if_pos (⟨by unfold T_RATIO; norm_num, by unfold T_RATIO; norm_num⟩ :
    T_RATIO ≠ 0 ∧ 1 < T_RATIO)]
  set t : ℤ := max (params_main_effects info + (SAFETY_ROWS : ℤ)) 2 with ht
  have h0 : (0 : ℤ) ≤ t := le_trans (by norm_num) (le_max_right _ 2)
  have hc : ((t.toNat : ℕ) : ℚ) = (t : ℚ) := by
    rw [← Int.cast_natCast, Int.toNat_of_nonneg h0]
  rw [← hc, ceil_t_scale_eq]

/-- `E_upper_at_T` as a pure natural-number computation. -/
theorem E_upper_at_T_eq (info : CategoryInfo) (study_mode : String)
    (max_active_per_row : Option ℕ) (T : ℕ) :
    E_upper_at_T info study_mode max_active_per_row T =
      min (((info.map fun p => T / (p.2.length + 2)).min?).getD 0)
        ((T * (if study_mode = "grid" then
            (match max_active_per_row with
              | some a => a
              | none => numCategories info)
          else numCategories info)) / totalElems info) := by
  unfold E_upper_at_T
  simp only [absence_floor_eq, natCast_floor_div_eq]

/-! The convolution in `visible_capacity`. -/

/-- The coefficient list built by `visible_capacity`'s convolution loop. -/
def capCoeffs (info : CategoryInfo) : List ℕ :=
  (catSizes info).foldl (convStep (catSizes info).length) (1 :: List.replicate (catSizes info).length 0)

theorem catSizes_length (info : CategoryInfo) : (catSizes info).length = numCategories info := by
  simp [catSizes, numCategories]

theorem getD_map_range (n : ℕ) (f : ℕ → ℕ) (k : ℕ) :
    ((List.range n).map f).getD k 0 = if k < n then f k else 0 := by
  by_cases h : k < n
  · rw [if_pos h, List.getD_eq_getElem?_getD, List.getElem?_map, List.getElem?_range h]
    rfl
  · rw [if_neg h, List.getD_eq_getElem?_getD,
      List.getElem?_eq_none (by simp only [List.length_map, List.length_range]; omega)]
    rfl

theorem sum_map_range (f : ℕ → ℕ) (n : ℕ) :
    ((List.range n).map f).sum = ∑ k ∈ Finset.range n, f k := by
  induction n with
  | zero => simp
  | succ n ih =>
    rw [List.range_succ, List.map_append, List.sum_append, Finset.sum_range_succ, ih]
    simp

theorem sum_range_getD (l : List ℕ) : ∑ k ∈ Finset.range l.length, l.getD k 0 = l.sum := by
  induction l with
  | nil => simp
  | cons a t ih =>
    rw [List.length_cons, Finset.sum_range_succ']
    simp only [List.getD_cons_succ, List.getD_cons_zero, List.sum_cons, ih]
    omega

theorem convStep_length (C : ℕ) (coeff : List ℕ) (mi : ℕ) :
    (convStep C coeff mi).length = C + 1 := by
  simp [convStep]

theorem getD_convStep_of_le (C : ℕ) (coeff : List ℕ) (mi k : ℕ) (hk : k ≤ C) :
    (convStep C coeff mi).getD k 0 =
      coeff.getD k 0 + (if k = 0 then 0 else coeff.getD (k - 1) 0 * mi) := by
  rw [convStep, getD_map_range, if_pos (by omega)]

theorem getD_convStep_zero_of_ge {C : ℕ} {coeff : List ℕ} {mi d : ℕ}
    (hd : ∀ j, d ≤ j → coeff.getD j 0 = 0) :
    ∀ j, d + 1 ≤ j → (convStep C coeff mi).getD j 0 = 0 := by
  intro j hj
  by_cases hjC : j ≤ C
  · rw [getD_convStep_of_le C coeff mi j hjC, hd j (by omega), if_neg (by omega),
      hd (j - 1) (by omega)]
    simp
  · rw [convStep, getD_map_range, if_neg (by omega)]

theorem sum_convStep (C : ℕ) (coeff : List ℕ) (mi : ℕ) (hlen : coeff.length = C + 1)
    (htop : coeff.getD C 0 = 0) : (convStep C coeff mi).sum = coeff.sum * (mi + 1) := by
  have h1 : (convStep C coeff mi).sum =
      ∑ k ∈ Finset.range (C + 1),
        (coeff.getD k 0 + if k = 0 then 0 else coeff.getD (k - 1) 0 * mi) := by
    rw [convStep, sum_map_range]
  have h2 : ∑ k ∈ Finset.range (C + 1), coeff.getD k 0 = coeff.sum := by
    rw [← hlen, sum_range_getD]
  have h3 : ∑ k ∈ Finset.range C, coeff.getD k 0 = coeff.sum := by
    have hs := Finset.sum_range_succ (fun k => coeff.getD k 0) C
    rw [h2] at hs
    simp only [htop, add_zero] at hs
    exact hs.symm
  have h4 : ∑ k ∈ Finset.range (C + 1),
      (if k = 0 then 0 else coeff.getD (k - 1) 0 * mi) =
      ∑ k ∈ Finset.range C, coeff.getD k 0 * mi := by
    rw [Finset.sum_range_succ']
    simp
  rw [h1, Finset.sum_add_distrib, h2, h4, ← Finset.sum_mul, h3]
  ring

theorem foldl_convStep_length (C : ℕ) (ms : List ℕ) :
    ∀ init : List ℕ, init.length = C + 1 → (ms.foldl (convStep C) init).length = C + 1 := by
  induction ms with
  | nil => intro init h; exact h
  | cons mi ms ih => intro init _; exact ih _ (convStep_length C init mi)

theorem foldl_convStep_sum (C : ℕ) (ms : List ℕ) :
    ∀ (init : List ℕ) (d : ℕ), init.length = C + 1 → (∀ j, d ≤ j → init.getD j 0 = 0) →
      d + ms.length ≤ C + 1 →
      (ms.foldl (convStep C) init).sum = init.sum * ((ms.map fun q => q + 1).prod) := by
  induction ms with
  | nil => intro init d _ _ _; simp
  | cons mi ms ih =>
    intro init d h1 h2 h3
    rw [List.length_cons] at h3
    rw [List.foldl_cons,
      ih (convStep C init mi) (d + 1) (convStep_length C init mi)
        (getD_convStep_zero_of_ge h2) (by omega),
      sum_convStep C init mi h1 (h2 C (by omega))]
    simp only [List.map_cons, List.prod_cons]
    ring

theorem capCoeffs_length (info : CategoryInfo) :
    (capCoeffs info).length = numCategories info + 1 := by
  rw [capCoeffs, foldl_convStep_length _ _ _ (by simp), catSizes_length]

theorem capCoeffs_sum (info : CategoryInfo) :
    (capCoeffs info).sum = ((catSizes info).map fun q => q + 1).prod := by
  rw [capCoeffs, foldl_convStep_sum _ _ _ 1 (by simp)
    (by
      intro j hj
      rcases j with _ | j
      · omega
      · rw [List.getD_cons_succ, List.getD_eq_getElem?_getD, List.getElem?_replicate]
        split <;> rfl)
    (by omega)]
  simp

/-! `visible_capacity` as an interval sum over `capCoeffs`. -/

theorem visible_capacity_eq_sum (info : CategoryInfo) (mn : ℕ) (mx : Option ℕ) :
    visible_capacity info mn mx =
      ∑ k ∈ Finset.Icc mn
        (match mx with
          | none => numCategories info
          | some a => min a (numCategories info)),
        (capCoeffs info).getD k 0 := by
  have hc : (catSizes info).foldl (convStep (catSizes info).length)
      (1 :: List.replicate (catSizes info).length 0) = capCoeffs info := rfl
  rcases mx with _ | a
  · unfold visible_capacity
    simp only [Nat.max_zero]
    rw [hc, catSizes_length]
    split
    · rename_i hlt
      rw [Finset.Icc_eq_empty (by omega), Finset.sum_empty]
    · rfl
  · unfold visible_capacity
    simp only [Nat.max_zero]
    rw [hc, catSizes_length]
    split
    · rename_i hlt
      rw [Finset.Icc_eq_empty (by omega), Finset.sum_empty]
    · rfl

/-! Invariants of the planner's search loop. -/

/-- Whenever the loop accepts, the accepted `E` is `E_upper_at_T` at the final
`T`, it clears `PER_ELEM_EXPOSURES`, the final `T` is within capacity, and `T`
never decreased from its initial value. -/
theorem planLoop_ok_inv (Eup : ℕ → ℕ) (cap : ℕ) :
    ∀ T slack T' E', planLoop Eup cap T slack = .ok (T', E') →
      E' = Eup T' ∧ PER_ELEM_EXPOSURES ≤ Eup T' ∧ T' ≤ cap ∧ T ≤ T' := by
  intro T slack
  induction T, slack using planLoop.induct Eup cap with
  | case1 T slack h1 h2 =>
    intro T' E' h
    rw [planLoop.eq_def, dif_pos h1, dif_pos h2] at h
    exact absurd h (by simp)
  | case2 T slack h1 h2 h3 =>
    intro T' E' h
    rw [planLoop.eq_def, dif_pos h1, dif_neg h2, if_pos h3] at h
    simp only [Except.ok.injEq, Prod.mk.injEq] at h
    obtain ⟨rfl, rfl⟩ := h
    exact ⟨rfl, h3, by omega, le_refl _⟩
  | case3 T slack h1 h2 h3 ih =>
    intro T' E' h
    rw [planLoop.eq_def, dif_pos h1, dif_neg h2, if_neg h3] at h
    obtain ⟨he, hle, hcap, hT⟩ := ih T' E' h
    exact ⟨he, hle, hcap, by omega⟩
  | case4 T slack h1 h3 =>
    intro T' E' h
    rw [planLoop.eq_def, dif_neg h1, if_pos h3] at h
    simp only [Except.ok.injEq, Prod.mk.injEq] at h
    obtain ⟨rfl, rfl⟩ := h
    refine ⟨rfl, h3, ?_, le_refl _⟩
    simp only [Nat.max_zero] at h1
    omega
  | case5 T slack h1 h3 ih =>
    intro T' E' h
    rw [planLoop.eq_def, dif_neg h1, if_neg h3] at h
    obtain ⟨he, hle, hcap, hT⟩ := ih T' E' h
    exact ⟨he, hle, hcap, by omega⟩

/-- The loop's only error is the infeasibility message. -/
theorem planLoop_error_inv (Eup : ℕ → ℕ) (cap : ℕ) :
    ∀ T slack e, planLoop Eup cap T slack = .error e → e = infeasibleMessage := by
  intro T slack
  induction T, slack using planLoop.induct Eup cap with
  | case1 T slack h1 h2 =>
    intro e h
    rw [planLoop.eq_def, dif_pos h1, dif_pos h2] at h
    simpa using h.symm
  | case2 T slack h1 h2 h3 =>
    intro e h
    rw [planLoop.eq_def, dif_pos h1, dif_neg h2, if_pos h3] at h
    exact absurd h (by simp)
  | case3 T slack h1 h2 h3 ih =>
    intro e h
    rw [planLoop.eq_def, dif_pos h1, dif_neg h2, if_neg h3] at h
    exact ih e h
  | case4 T slack h1 h3 =>
    intro e h
    rw [planLoop.eq_def, dif_neg h1, if_pos h3] at h
    exact absurd h (by simp)
  | case5 T slack h1 h3 ih =>
    intro e h
    rw [planLoop.eq_def, dif_neg h1, if_neg h3] at h
    exact ih e h

set_option maxHeartbeats 1000000 in
/-- Destructuring a successful `plan_T_E_auto` call into its loop result and
the construction of the returned record. -/
theorem plan_ok_elim (info : CategoryInfo) (study_mode : String)
    (max_active_per_row : Option ℕ) (T E : ℕ) (Amap : List (String × ℤ)) (avg : ℚ)
    (Amin : ℕ)
    (h : plan_T_E_auto info study_mode max_active_per_row = .ok (T, E, Amap, avg, Amin)) :
    planLoop (E_upper_at_T info study_mode max_active_per_row)
        (visible_capacity info MIN_ACTIVE_PER_ROW
          (if study_mode = "grid" then max_active_per_row else none))
        (initialT info) CAPACITY_SLACK = .ok (T, E) ∧
      Amap = (info.map fun p => (p.1, (T : ℤ) - (p.2.length : ℤ) * (E : ℤ))) ∧
      avg = ((totalElems info * E : ℕ) : ℚ) / (T : ℚ) ∧
      Amin = ⌈ ABSENCE_RATIO * (E : ℚ)⌉₊ := by
  simp only [plan_T_E_auto] at h
  rcases hp : planLoop (E_upper_at_T info study_mode max_active_per_row)
      (visible_capacity info MIN_ACTIVE_PER_ROW
        (if study_mode = "grid" then max_active_per_row else none))
      (initialT info) CAPACITY_SLACK with e | TE
  · rw [hp] at h
    exact absurd h (by simp)
  · obtain ⟨T0, E0⟩ := TE
    rw [hp] at h
    simp only [Except.ok.injEq, Prod.mk.injEq] at h
    obtain ⟨rfl, rfl, rfl, rfl, rfl⟩ := h
    exact ⟨rfl, rfl, rfl, rfl⟩

/-- The accepted `E` respects the per-category ratio bound:
`E * (q[c] + 2) ≤ T` for every category `c`. -/
theorem E_upper_ratio_le (info : CategoryInfo) (study_mode : String)
    (max_active_per_row : Option ℕ) (T : ℕ) (p : String × List String) (hp : p ∈ info) :
    E_upper_at_T info study_mode max_active_per_row T * (p.2.length + 2) ≤ T := by
  rw [E_upper_at_T_eq]
  have hmem : T / (p.2.length + 2) ∈ info.map fun p => T / (p.2.length + 2) :=
    List.mem_map_of_mem _ hp
  rcases hmin : (info.map fun p => T / (p.2.length + 2)).min? with _ | m
  · rw [List.min?_eq_none_iff] at hmin
    rw [hmin] at hmem
    exact absurd hmem (by simp)
  · have hle : m ≤ T / (p.2.length + 2) := (List.min?_eq_some_iff'.mp hmin).2 _ hmem
    rw [hmin]
    simp only [Option.getD_some]
    exact (Nat.le_div_iff_mul_le (by omega)).mp (le_trans (min_le_left _ _) hle)

/-- `visible_capacity` with `max_active = None`, bound reduced. -/
theorem visible_capacity_eq_sum_none (info : CategoryInfo) (mn : ℕ) :
    visible_capacity info mn none =
      ∑ k ∈ Finset.Icc mn (numCategories info), (capCoeffs info).getD k 0 :=
  visible_capacity_eq_sum info mn none

/-- `visible_capacity` with an explicit cap, bound reduced. -/
theorem visible_capacity_eq_sum_some (info : CategoryInfo) (mn a : ℕ) :
    visible_capacity info mn (some a) =
      ∑ k ∈ Finset.Icc mn (min a (numCategories info)), (capCoeffs info).getD k 0 :=
  visible_capacity_eq_sum info mn (some a)

/-- With no cap, `visible_capacity` coincides with the cap at the category
count. -/
theorem visible_capacity_some_numCategories (info : CategoryInfo) (mn : ℕ) :
    visible_capacity info mn (some (numCategories info)) = visible_capacity info mn none := by
  rw [visible_capacity_eq_sum, visible_capacity_eq_sum]
  simp

/-! The multiplicative binomial loop computes the binomial coefficient. -/

/-- After `j` steps the loop `result = result * (n - i + 1) // i` holds
exactly `C(n, j)`: each intermediate value is itself a binomial coefficient,
so the floor division is always exact. -/
theorem foldl_comb (n : ℤ) (hn : 0 ≤ n) : ∀ j : ℕ, (j : ℤ) ≤ n →
    ((List.range' 1 j).foldl
        (fun (result : ℤ) (i : ℕ) => (result * (n - (i : ℤ) + 1)).fdiv (i : ℤ)) 1)
      = (n.toNat.choose j : ℤ) := by
  intro j
  induction j with
  | zero => intro _; simp
  | succ j ih =>
    intro hj
    have hj' : (j : ℤ) ≤ n := by push_cast at hj ⊢; omega
    rw [List.range'_1_concat, List.foldl_append, ih hj', List.foldl_cons, List.foldl_nil]
    have harg : n - ((1 + j : ℕ) : ℤ) + 1 = ((n.toNat - j : ℕ) : ℤ) := by
      push_cast at hj ⊢
      omega
    rw [harg]
    have hprod : (n.toNat.choose j : ℤ) * ((n.toNat - j : ℕ) : ℤ) =
        ((n.toNat.choose (j + 1) * (j + 1) : ℕ) : ℤ) := by
      push_cast [Nat.choose_succ_right_eq]
      ring
    rw [hprod, Int.fdiv_eq_ediv _ (by positivity)]
    push_cast
    rw [show (1 + (j : ℤ)) = (j : ℤ) + 1 from by ring, Int.mul_ediv_cancel _ (by omega)]

/-- `calculate_combination` agrees with `math.comb` on non-negative `n`. -/
theorem calculate_combination_eq_choose (n : ℤ) (k : ℕ) (hn : 0 ≤ n) :
    calculate_combination n k = (n.toNat.choose k : ℤ) := by
  unfold calculate_combination
  split
  · rename_i h
    rw [Nat.choose_eq_zero_of_lt (by omega)]
    simp
  · rename_i h
    split
    · rename_i h'
      rcases h' with rfl | hkn
      · simp
      · rw [show n.toNat = k from by omega, Nat.choose_self]
        simp
    · rename_i h'
      push_neg at h h'
      exact foldl_comb n hn k (by omega)


theorem planLoop_cap6_error (Eup : ℕ → ℕ) : planLoop Eup 6 11 1 = .error infeasibleMessage := by
  rw [planLoop.eq_def, dif_pos (by decide), dif_pos (by decide)]

theorem plan_sampleAB_error (study_mode : String) (mar : Option ℕ)
    (hcap : visible_capacity sampleAB MIN_ACTIVE_PER_ROW
      (if study_mode = "grid" then mar else none) = 6) :
    plan_T_E_auto sampleAB study_mode mar = .error infeasibleMessage := by
  simp only [plan_T_E_auto]
  rw [hcap, show initialT sampleAB = 11 from by rw [initialT_eq]; decide,
    show CAPACITY_SLACK = 1 from rfl, planLoop_cap6_error]

theorem plan_sampleThree_ok (study_mode : String) (mar : Option ℕ)
    (hcap : visible_capacity sampleThree MIN_ACTIVE_PER_ROW
      (if study_mode = "grid" then mar else none) = 54)
    (hEup : E_upper_at_T sampleThree study_mode mar 15 = 3) :
    plan_T_E_auto sampleThree study_mode mar =
      .ok (15, 3, [( "A", 6), ( "B", 6), ( "C", 6)], 9 / 5, 6) := by
  have hloop : planLoop (E_upper_at_T sampleThree study_mode mar) 54 15 1 = .ok (15, 3) := by
    rw [planLoop.eq_def, dif_neg (by decide), if_pos (by rw [hEup]; decide), hEup]
  simp only [plan_T_E_auto]
  rw [hcap, show initialT sampleThree = 15 from by rw [initialT_eq]; decide,
    show CAPACITY_SLACK = 1 from rfl, hloop]
  norm_num [sampleThree, totalElems, catSizes, ceil_absence_eq]
  norm_num [ ABSENCE_RATIO]


/-- C1: on success of `plan_T_E_auto`, `E ≥ PER_ELEM_EXPOSURES`, every entry of
`A_map` is `T - q[c]*E` and at least `ceil(ABSENCE_RATIO*E)`, and `T` is within
the visible capacity at `MIN_ACTIVE_PER_ROW` with rowcap `max_active_per_row`
in grid mode and the category count otherwise. -/
theorem plan_T_E_auto_postconditions (info : CategoryInfo) (study_mode : String)
    (max_active_per_row : Option ℕ) (T E : ℕ) (Amap : List (String × ℤ)) (avg : ℚ)
    (Amin : ℕ)
    (h : plan_T_E_auto info study_mode max_active_per_row = .ok (T, E, Amap, avg, Amin)) :
    PER_ELEM_EXPOSURES ≤ E ∧
    Amap = (info.map fun p => (p.1, (T : ℤ) - (p.2.length : ℤ) * (E : ℤ))) ∧
    (∀ a ∈ Amap, ((⌈ ABSENCE_RATIO * (E : ℚ)⌉₊ : ℕ) : ℤ) ≤ a.2) ∧
    T ≤ visible_capacity info MIN_ACTIVE_PER_ROW
        (if study_mode = "grid" then max_active_per_row else some (numCategories info)) := by
  obtain ⟨hp, hA, havg, hAmin⟩ := plan_ok_elim _ _ _ _ _ _ _ _ h
  obtain ⟨hE, hle, hcap, hT⟩ := planLoop_ok_inv _ _ _ _ _ _ hp
  rw [← hE] at hle
  refine ⟨hle, hA, ?_, ?_⟩
  · intro a ha
    rw [hA] at ha
    obtain ⟨p, hp', rfl⟩ := List.mem_map.mp ha
    have hb := E_upper_ratio_le info study_mode max_active_per_row T p hp'
    rw [← hE] at hb
    have hb2 : p.2.length * E + 2 * E ≤ T := by
      have h' : p.2.length * E + 2 * E = E * (p.2.length + 2) := by ring
      rw [h']
      exact hb
    rw [ceil_absence_eq]
    push_cast
    omega
  · by_cases hsm : study_mode = "grid"
    · rw [if_pos hsm] at hcap ⊢
      exact hcap
    · rw [if_neg hsm] at hcap ⊢
      rw [visible_capacity_some_numCategories]
      exact hcap

/-- Witness for C1: the planner succeeds on `sampleThree` in layer mode with
`T = 15`, `E = 3`, absences 6 per category, and the postconditions hold. -/
theorem plan_T_E_auto_postconditions_witness :
    plan_T_E_auto sampleThree "layer" none =
      .ok (15, 3, [( "A", 6), ( "B", 6), ( "C", 6)], 9 / 5, 6) ∧
    PER_ELEM_EXPOSURES ≤ 3 ∧
    ([( "A", (6 : ℤ)), ( "B", 6), ( "C", 6)] =
      (sampleThree.map fun p => (p.1, (15 : ℤ) - (p.2.length : ℤ) * (3 : ℤ)))) ∧
    (∀ a ∈ [( "A", (6 : ℤ)), ( "B", 6), ( "C", 6)],
      ((⌈ ABSENCE_RATIO * ((3 : ℕ) : ℚ)⌉₊ : ℕ) : ℤ) ≤ a.2) ∧
    15 ≤ visible_capacity sampleThree MIN_ACTIVE_PER_ROW
        (if ( "layer" : String) = "grid" then none else some (numCategories sampleThree)) := by
  have hplan : plan_T_E_auto sampleThree "layer" none =
      .ok (15, 3, [( "A", 6), ( "B", 6), ( "C", 6)], 9 / 5, 6) :=
    plan_sampleThree_ok "layer" none (by decide) (by rw [E_upper_at_T_eq]; decide)
  exact ⟨hplan, plan_T_E_auto_postconditions sampleThree "layer" none 15 3 _ _ _ hplan⟩


/-- C3: the concrete scenario `{A:[a1,a2], B:[b1,b2,b3]}`: `P = 4`, capacity
at `min_active = 2, max_active = 2` is `6`, and in grid mode with no row cap
the planner either succeeds with `T ≤ 6` or raises infeasibility. -/
theorem sampleAB_scenario :
    params_main_effects sampleAB = 4 ∧
    visible_capacity sampleAB 2 (some 2) = 6 ∧
    ((∃ T E Amap avg Amin,
        plan_T_E_auto sampleAB "grid" none = .ok (T, E, Amap, avg, Amin) ∧ T ≤ 6) ∨
      plan_T_E_auto sampleAB "grid" none = .error infeasibleMessage) := by
  exact ⟨by decide, by decide, Or.inr (plan_sampleAB_error "grid" none (by decide))⟩

/-- Helper for C4: an error of `plan_T_E_auto` is an error of its loop. -/
theorem plan_error_elim (info : CategoryInfo) (study_mode : String)
    (max_active_per_row : Option ℕ) (e : String)
    (h : plan_T_E_auto info study_mode max_active_per_row = .error e) :
    planLoop (E_upper_at_T info study_mode max_active_per_row)
        (visible_capacity info MIN_ACTIVE_PER_ROW
          (if study_mode = "grid" then max_active_per_row else none))
        (initialT info) CAPACITY_SLACK = .error e := by
  simp only [plan_T_E_auto] at h
  rcases hp : planLoop (E_upper_at_T info study_mode max_active_per_row)
      (visible_capacity info MIN_ACTIVE_PER_ROW
        (if study_mode = "grid" then max_active_per_row else none))
      (initialT info) CAPACITY_SLACK with e' | TE
  · rw [hp] at h
    simp only [Except.error.injEq] at h
    rw [h]
  · obtain ⟨T0, E0⟩ := TE
    rw [hp] at h
    exact absurd h (by simp)

/-- C4: on any configuration with at least one category and one element the
planner terminates, either succeeding with `E ≥ PER_ELEM_EXPOSURES` or raising
exactly the infeasibility error. -/
theorem plan_T_E_auto_terminates (info : CategoryInfo) (study_mode : String)
    (max_active_per_row : Option ℕ) (h : info ≠ [] ∧ 1 ≤ totalElems info) :
    (∃ T E Amap avg Amin,
        plan_T_E_auto info study_mode max_active_per_row = .ok (T, E, Amap, avg, Amin) ∧
          PER_ELEM_EXPOSURES ≤ E) ∨
      plan_T_E_auto info study_mode max_active_per_row = .error infeasibleMessage := by
  rcases hp : plan_T_E_auto info study_mode max_active_per_row with e | r
  · exact Or.inr
      (congrArg Except.error (planLoop_error_inv _ _ _ _ _ (plan_error_elim _ _ _ _ hp)))
  · obtain ⟨T, E, Amap, avg, Amin⟩ := r
    obtain ⟨hloop, _, _, _⟩ := plan_ok_elim _ _ _ _ _ _ _ _ hp
    obtain ⟨hE, hle, _, _⟩ := planLoop_ok_inv _ _ _ _ _ _ hloop
    exact Or.inl ⟨T, E, Amap, avg, Amin, rfl, hE ▸ hle⟩

/-- Witness for C4 at `sampleThree` in layer mode (the success branch). -/
theorem plan_T_E_auto_terminates_witness :
    (sampleThree ≠ [] ∧ 1 ≤ totalElems sampleThree) ∧
    ((∃ T E Amap avg Amin,
        plan_T_E_auto sampleThree "layer" none = .ok (T, E, Amap, avg, Amin) ∧
          PER_ELEM_EXPOSURES ≤ E) ∨
      plan_T_E_auto sampleThree "layer" none = .error infeasibleMessage) :=
  ⟨⟨by decide, by decide⟩,
    plan_T_E_auto_terminates sampleThree "layer" none ⟨by decide, by decide⟩⟩

/-- C9: the returned `T` never drops below the scaled identifiability floor
`initialT` (the search only ever increases `T`). -/
theorem plan_T_E_auto_T_ge_initial (info : CategoryInfo) (study_mode : String)
    (max_active_per_row : Option ℕ) (T E : ℕ) (Amap : List (String × ℤ)) (avg : ℚ)
    (Amin : ℕ)
    (h : plan_T_E_auto info study_mode max_active_per_row = .ok (T, E, Amap, avg, Amin)) :
    initialT info ≤ T := by
  obtain ⟨hloop, _, _, _⟩ := plan_ok_elim _ _ _ _ _ _ _ _ h
  exact (planLoop_ok_inv _ _ _ _ _ _ hloop).2.2.2

/-- Witness for C9 at `sampleThree`: `initialT = 15 ≤ 15 = T`. -/
theorem plan_T_E_auto_T_ge_initial_witness :
    plan_T_E_auto sampleThree "layer" none =
      .ok (15, 3, [( "A", 6), ( "B", 6), ( "C", 6)], 9 / 5, 6) ∧
    initialT sampleThree ≤ 15 := by
  have hplan : plan_T_E_auto sampleThree "layer" none =
      .ok (15, 3, [( "A", 6), ( "B", 6), ( "C", 6)], 9 / 5, 6) :=
    plan_sampleThree_ok "layer" none (by decide) (by rw [E_upper_at_T_eq]; decide)
  exact ⟨hplan, plan_T_E_auto_T_ge_initial sampleThree "layer" none 15 3 _ _ _ hplan⟩

/-- C10: grid mode with no row cap behaves exactly like layer mode. -/
theorem plan_grid_none_eq_layer (info : CategoryInfo) (mar : Option ℕ) :
    plan_T_E_auto info "grid" none = plan_T_E_auto info "layer" mar := by
  have hE : E_upper_at_T info "grid" none = E_upper_at_T info "layer" mar := by
    funext T
    rw [E_upper_at_T_eq, E_upper_at_T_eq]
    simp
  simp only [plan_T_E_auto, hE]
  simp


/-- C2: the two fallback calculators agree on every non-negative element
count. -/
theorem simple_eq_javascript (total_elements : ℤ) (h : 0 ≤ total_elements) :
    calculate_tasks_per_consumer_simple total_elements =
      calculate_tasks_per_consumer_javascript total_elements := by
  simp only [calculate_tasks_per_consumer_simple, calculate_tasks_per_consumer_javascript]
  by_cases h4 : total_elements < 4
  · rw [if_pos h4, if_pos h4]
  · rw [if_neg h4, if_neg h4, calculate_combination_eq_choose _ _ h]
    split_ifs <;> first | rfl | (exfalso; omega)

/-- Witness for C2 at `total_elements = 20`. -/
theorem simple_eq_javascript_witness :
    (0 : ℤ) ≤ 20 ∧
    calculate_tasks_per_consumer_simple 20 = calculate_tasks_per_consumer_javascript 20 :=
  ⟨by decide, simple_eq_javascript 20 (by decide)⟩

/-- C6: `visible_capacity` is monotone non-decreasing in `max_active` and
non-increasing in `min_active`. -/
theorem visible_capacity_monotone (info : CategoryInfo) (mn mn' a b : ℕ) (mx : Option ℕ)
    (hab : a ≤ b) (hmn : mn ≤ mn') :
    visible_capacity info mn (some a) ≤ visible_capacity info mn (some b) ∧
      visible_capacity info mn' mx ≤ visible_capacity info mn mx := by
  constructor
  · rw [visible_capacity_eq_sum, visible_capacity_eq_sum]
    exact Finset.sum_le_sum_of_subset
      (Finset.Icc_subset_Icc le_rfl (min_le_min hab le_rfl))
  · rw [visible_capacity_eq_sum, visible_capacity_eq_sum]
    exact Finset.sum_le_sum_of_subset (Finset.Icc_subset_Icc hmn le_rfl)

/-- Witness for C6 at the concrete two-category configuration. -/
theorem visible_capacity_monotone_witness :
    (1 ≤ 2 ∧ 0 ≤ 1) ∧
    (visible_capacity sampleAB 0 (some 1) ≤ visible_capacity sampleAB 0 (some 2) ∧
      visible_capacity sampleAB 1 none ≤ visible_capacity sampleAB 0 none) :=
  ⟨⟨by decide, by decide⟩,
    visible_capacity_monotone sampleAB 0 1 1 2 none (by decide) (by decide)⟩

/-- C7: with `min_active = 0` and no effective cap, `visible_capacity` is the
full convolution total `∏ (1 + q[c])`. -/
theorem visible_capacity_full_range (info : CategoryInfo) :
    visible_capacity info 0 (some (numCategories info)) =
      ((catSizes info).map fun q => 1 + q).prod ∧
    visible_capacity info 0 none = ((catSizes info).map fun q => 1 + q).prod := by
  have hmap : ((catSizes info).map fun q => 1 + q) = ((catSizes info).map fun q => q + 1) :=
    List.map_congr_left fun q _ => by omega
  have h1 : Finset.Icc 0 (numCategories info) = Finset.range (numCategories info + 1) := by
    rw [Finset.range_eq_Ico, Nat.Ico_succ_right]
  have hnone : visible_capacity info 0 none = ((catSizes info).map fun q => q + 1).prod := by
    rw [visible_capacity_eq_sum_none, h1, ← capCoeffs_length info, sum_range_getD,
      capCoeffs_sum]
  exact ⟨by rw [visible_capacity_some_numCategories, hnone, hmap],
    by rw [hnone, hmap]⟩

/-- C8: for fewer than 4 elements, the façade and both fallbacks return 8. -/
theorem below_four_returns_eight (total_elements : ℤ) (category_info : Option CategoryInfo)
    (study_mode : String) (use_advanced_algorithm : Bool) (h : total_elements < 4) :
    calculate_tasks_per_consumer total_elements category_info study_mode
        use_advanced_algorithm = 8 ∧
      calculate_tasks_per_consumer_simple total_elements = 8 ∧
      calculate_tasks_per_consumer_javascript total_elements = 8 := by
  refine ⟨?_, ?_, ?_⟩
  · simp only [calculate_tasks_per_consumer]
    rw [if_pos h]
  · simp only [calculate_tasks_per_consumer_simple]
    rw [if_pos h]
  · simp only [calculate_tasks_per_consumer_javascript]
    rw [if_pos h]

/-- Witness for C8 at `total_elements = 3`. -/
theorem below_four_returns_eight_witness :
    (3 : ℤ) < 4 ∧
    (calculate_tasks_per_consumer 3 none "grid" true = 8 ∧
      calculate_tasks_per_consumer_simple 3 = 8 ∧
      calculate_tasks_per_consumer_javascript 3 = 8) :=
  ⟨by decide, below_four_returns_eight 3 none "grid" true (by decide)⟩


/-- C5: the façade is a total function: below 4 elements it returns 8; in
advanced mode any planner error is caught and the simple fallback returned; a
planner success returns its `T`; and outside the advanced path it returns the
simple fallback. -/
theorem calculate_tasks_per_consumer_total (total_elements : ℤ)
    (category_info : Option CategoryInfo) (study_mode : String)
    (use_advanced_algorithm : Bool) :
    (total_elements < 4 →
      calculate_tasks_per_consumer total_elements category_info study_mode
        use_advanced_algorithm = 8) ∧
    (∀ info e, 4 ≤ total_elements → category_info = some info → info ≠ [] →
      use_advanced_algorithm = true →
      plan_T_E_auto info study_mode
        (if study_mode = "grid" then some (min 4 info.length) else none) = .error e →
      calculate_tasks_per_consumer total_elements category_info study_mode
        use_advanced_algorithm = calculate_tasks_per_consumer_simple total_elements) ∧
    (∀ info T rest, 4 ≤ total_elements → category_info = some info → info ≠ [] →
      use_advanced_algorithm = true →
      plan_T_E_auto info study_mode
        (if study_mode = "grid" then some (min 4 info.length) else none) = .ok (T, rest) →
      calculate_tasks_per_consumer total_elements category_info study_mode
        use_advanced_algorithm = (T : ℤ)) ∧
    (4 ≤ total_elements →
      (use_advanced_algorithm = false ∨ category_info = none ∨ category_info = some []) →
      calculate_tasks_per_consumer total_elements category_info study_mode
        use_advanced_algorithm = calculate_tasks_per_consumer_simple total_elements) := by
  refine ⟨?_, ?_, ?_, ?_⟩
  · intro h
    simp only [calculate_tasks_per_consumer]
    rw [if_pos h]
  · intro info e h4 hci hne hadv hplan
    subst hci
    subst hadv
    simp only [calculate_tasks_per_consumer]
    rw [if_neg (by omega), if_neg (by simp only [List.isEmpty_iff]; exact hne), hplan]
  · intro info T rest h4 hci hne hadv hplan
    subst hci
    subst hadv
    simp only [calculate_tasks_per_consumer]
    rw [if_neg (by omega), if_neg (by simp only [List.isEmpty_iff]; exact hne), hplan]
  · intro h4 hcase
    rcases hcase with hadv | hci | hci
    · subst hadv
      rcases category_info with _ | info <;>
        · simp only [calculate_tasks_per_consumer]
          rw [if_neg (by omega)]
    · subst hci
      simp only [calculate_tasks_per_consumer]
      rw [if_neg (by omega)]
    · subst hci
      simp only [calculate_tasks_per_consumer]
      rw [if_neg (by omega)]
      rcases use_advanced_algorithm
      · rfl
      · simp


/-- Witness for C5: on `sampleAB` in grid mode the planner raises and the
façade returns the simple fallback. -/
theorem calculate_tasks_per_consumer_total_witness :
    (4 : ℤ) ≤ 5 ∧
    plan_T_E_auto sampleAB "grid"
      (if ( "grid" : String) = "grid" then some (min 4 sampleAB.length) else none) =
        .error infeasibleMessage ∧
    calculate_tasks_per_consumer 5 (some sampleAB) "grid" true =
      calculate_tasks_per_consumer_simple 5 := by
  have hplan : plan_T_E_auto sampleAB "grid"
      (if ( "grid" : String) = "grid" then some (min 4 sampleAB.length) else none) =
        .error infeasibleMessage := by
    rw [show (if ( "grid" : String) = "grid" then some (min 4 sampleAB.length) else none) =
        some 2 from by simp [sampleAB]]
    exact plan_sampleAB_error "grid" (some 2) (by decide)
  exact ⟨by decide, hplan,
    (calculate_tasks_per_consumer_total 5 (some sampleAB) "grid" true).2.1 sampleAB
      infeasibleMessage (by decide) rfl (by decide) rfl hplan⟩

end TaskCalculation
